import Mathlib

/-!
Shallow embedding of the Baileys-CommonJS Signal repository layer
(`src/Signal/libsignal.ts`) together with the store types it relies on
(`src/Types/Auth.ts`).

JavaScript strings are modelled as `List Char` (`JStr`), byte buffers as
`List Nat` (`Bytes`).  The key-value store (`SignalAuthState["keys"]`) is
modelled as a `SignalKeys` structure of lookup functions; a lookup either
fails (`Except.error`, modelling a rejected promise) or returns the record
found, `Option`-wrapped because missing ids are simply absent from a
`get` result.  The external cryptographic primitives (libsignal's
`SessionCipher`/`SessionBuilder` and the WASignalGroup classes) are kept
abstract as structures of state-passing functions, exactly as the spec
treats them (black boxes behind a fixed interface).
-/

deriving instance DecidableEq for Except

namespace Baileys

abbrev JStr := List Char
abbrev Bytes := List Nat

/-- Case-insensitive character comparison, modelling the `/i` regex flag. -/
def ciEq (a b : Char) : Bool := a.toLower == b.toLower

/-- Case-insensitive list equality, modelling an `/i` regex matching a fixed word. -/
def ciEqList (a b : JStr) : Bool := a.map Char.toLower == b.map Char.toLower

/-- Case-insensitive prefix test. -/
def startsWithCI : JStr → JStr → Bool
  | _, [] => true
  | [], _ :: _ => false
  | c :: cs, d :: ds => ciEq c d && startsWithCI cs ds

/-- Case-insensitive suffix test, modelling an end-anchored `/…$/i` regex test. -/
def endsWithCI (s sfx : JStr) : Bool := startsWithCI s.reverse sfx.reverse

/-- The alternate-scheme marker `@lid`. -/
def lidSuffix : JStr := ['@', 'l', 'i', 'd']

/-- The canonical-address suffix `@s.whatsapp.net`. -/
def waSuffix : JStr := ['@', 's', '.', 'w', 'h', 'a', 't', 's', 'a', 'p', 'p', '.', 'n', 'e', 't']

/-- Source line 27: `/@lid$/i.test(id)`. -/
def hasLidSuffix (id : JStr) : Bool := endsWithCI id lidSuffix

/-- Character class `[^:@]` of the lid regexes. -/
def notSep (c : Char) : Bool := c ≠ ':' && c ≠ '@'

/-- Full-anchored match of `/^([^:@]+)(:\d+)?@lid$/i` (source lines 30 and 37).
Returns `some (user, optional ":digits" device suffix)` when the regex matches.
The split is deterministic: `$1` cannot contain `:` or `@`, so it is the maximal
separator-free prefix, and `\d+` is followed by `@` which is not a digit. -/
def parseLid (id : JStr) : Option (JStr × Option JStr) :=
  if (id.takeWhile notSep).isEmpty then none
  else
    match id.dropWhile notSep with
    | [] => none
    | c :: rest =>
      if c = ':' then
        if (rest.takeWhile Char.isDigit).isEmpty then none
        else if ciEqList (rest.dropWhile Char.isDigit) lidSuffix then
          some (id.takeWhile notSep, some (':' :: rest.takeWhile Char.isDigit))
        else none
      else if ciEqList (id.dropWhile notSep) lidSuffix then some (id.takeWhile notSep, none)
      else none

/-- Source line 30: `id.replace(/^([^:@]+)(:\d+)?@lid$/i, "$1@lid")` — on a match
the result is `$1` plus the literal (lowercase) `@lid` of the replacement
template; on no match `replace` returns the string unchanged. -/
def bareLid (id : JStr) : JStr :=
  match parseLid id with
  | some (u, _) => u ++ lidSuffix
  | none => id

/-- Source lines 37–38: `id.match(/^([^:@]+)(:\d+)@lid$/i)` with
`device = match ? match[2] : ""`.  The device group is mandatory here, so the
device string is extracted only when the full device-carrying form matches. -/
def deviceOf (id : JStr) : JStr :=
  match parseLid id with
  | some (_, some d) => d
  | _ => []

/-- Source line 39: `mapped.replace(/@s\.whatsapp\.net$/i, device + "@s.whatsapp.net")` —
an end-anchored fixed-length pattern: when `mapped` ends (case-insensitively)
with `@s.whatsapp.net`, its last 15 characters are replaced by the literal
`device + "@s.whatsapp.net"`; otherwise `mapped` is returned unchanged. -/
def replaceWaSuffix (mapped dev : JStr) : JStr :=
  if endsWithCI mapped waSuffix then mapped.take (mapped.length - 15) ++ dev ++ waSuffix
  else mapped

/-- Error taxonomy of the embedding: address decoding failure and store failure. -/
inductive SigErr where
  | MalformedAddress
  | Store (msg : JStr)
deriving DecidableEq, Repr

/-- The key store (`SignalAuthState["keys"]`), restricted to the kinds the
repository layer touches.  Each kind is a per-id lookup that can fail (a store
error, modelling a rejected `keys.get`) or report the id present/absent. -/
structure SignalKeys where
  lidMapping : JStr → Except SigErr (Option JStr)
  session : JStr → Except SigErr (Option Bytes)
  senderKey : JStr → Except SigErr (Option Bytes)

/-- Source lines 23–46, `normalizeLidToJid`: if the id does not carry the
`@lid` marker it is returned unchanged; otherwise the bare lid is looked up in
the `lid-mapping` kind, and on a non-empty string result the original device
suffix is re-attached via the `@s.whatsapp.net` replacement.  A lookup error
(the `try`/`catch`), a missing entry, an empty mapped value all fall through to
returning the original id. -/
def normalizeLidToJid (id : JStr) (keys : SignalKeys) : JStr :=
  if hasLidSuffix id then
    match keys.lidMapping (bareLid id) with
    | .ok (some mapped) =>
        if mapped.isEmpty then id else replaceWaSuffix mapped (deviceOf id)
    | _ => id
  else id

/-- `{user, device}` pair produced by jid decoding. -/
structure ProtocolAddress where
  name : JStr
  deviceId : Nat
deriving DecidableEq, Repr

/-- Fuel-driven base-10 digit accumulator (structural, so it evaluates). -/
def natCharsAux : Nat → Nat → JStr → JStr
  | 0, _, acc => acc
  | fuel + 1, n, acc =>
    if n < 10 then Char.ofNat (48 + n % 10) :: acc
    else natCharsAux fuel (n / 10) (Char.ofNat (48 + n % 10) :: acc)

/-- Digit characters of a natural number, used for the composite sender-key name. -/
def natChars (n : Nat) : JStr := natCharsAux (n + 1) n []

/-- Digit-string to number, for the decoded device index. -/
def charsToNat (ds : JStr) : Nat := ds.foldl (fun a c => a * 10 + (c.toNat - 48)) 0

/-- Modelled from the spec: `jidDecode` lives in `src/WABinary`, which is not
under `src/`.  Per §4.3 it splits a routable address `user[:device]@server`
into principal and optional device index; an address with no `@`, or with a
non-numeric or empty device segment, is undecodable (`none`). -/
def jidDecode (jid : JStr) : Option (JStr × Option Nat) :=
  if jid.contains '@' then
    let userCombined := jid.takeWhile (· ≠ '@')
    let user := userCombined.takeWhile (· ≠ ':')
    match userCombined.dropWhile (· ≠ ':') with
    | [] => some (user, none)
    | _ :: ds => if !ds.isEmpty && ds.all Char.isDigit then some (user, some (charsToNat ds)) else none
  else none

/-- Source lines 129–132: decode the jid and build a `ProtocolAddress` with
`device || 0`.  Per spec §4.3 an empty principal or an undecodable address
fails with `MalformedAddress`; the function is pure (no store access). -/
def jidToSignalProtocolAddress (jid : JStr) : Except SigErr ProtocolAddress :=
  match jidDecode jid with
  | none => .error .MalformedAddress
  | some (u, d) => if u.isEmpty then .error .MalformedAddress else .ok ⟨u, d.getD 0⟩

/-- Modelled from the spec: `SenderKeyName.toString` comes from `WASignalGroup`,
which is not under `src/`.  Per §4.3 it is a deterministic composite key
combining the group id and the member's resolved `ProtocolAddress`. -/
def senderKeyNameStr (group : JStr) (addr : ProtocolAddress) : JStr :=
  group ++ (':' :: ':' :: addr.name) ++ (':' :: ':' :: natChars addr.deviceId)

/-- Source lines 134–136: `new SenderKeyName(group, jidToSignalProtocolAddress(user)).toString()`. -/
def jidToSignalSenderKeyName (group user : JStr) : Except SigErr JStr :=
  (jidToSignalProtocolAddress user).map (senderKeyNameStr group)

/-- `keys.set({ session: { [id]: v } })`: functional update of the `session` kind. -/
def setSession (k : SignalKeys) (id : JStr) (v : Bytes) : SignalKeys :=
  { k with session := fun x => if x = id then .ok (some v) else k.session x }

/-- `keys.set({ "sender-key": { [id]: v } })`: functional update of the `sender-key` kind. -/
def setSenderKey (k : SignalKeys) (id : JStr) (v : Bytes) : SignalKeys :=
  { k with senderKey := fun x => if x = id then .ok (some v) else k.senderKey x }

/-- Source lines 144–150, `signalStorage.loadSession`: normalize the id, then
read the `session` kind under the normalized id.  (Deserialization of the
record is an external-library step on the opaque bytes and is elided.) -/
def loadSession (keys : SignalKeys) (id : JStr) : Except SigErr (Option Bytes) :=
  keys.session (normalizeLidToJid id keys)

/-- Source lines 151–154, `signalStorage.storeSession`: normalize the id, then
write the serialized record under the normalized id. -/
def storeSession (keys : SignalKeys) (id : JStr) (v : Bytes) : SignalKeys :=
  setSession keys (normalizeLidToJid id keys) v

/-- Source lines 176–182, `signalStorage.loadSenderKey`. -/
def loadSenderKey (keys : SignalKeys) (id : JStr) : Except SigErr (Option Bytes) :=
  keys.senderKey (normalizeLidToJid id keys)

/-- Source lines 183–186, `signalStorage.storeSenderKey`. -/
def storeSenderKey (keys : SignalKeys) (id : JStr) (v : Bytes) : SignalKeys :=
  setSenderKey keys (normalizeLidToJid id keys) v

/-- Source lines 155–157, `signalStorage.isTrustedIdentity`: the TypeScript
arrow function takes no parameters (callers' identity/address arguments are
ignored) and returns `true` unconditionally. -/
def isTrustedIdentity (_identity : JStr) (_address : ProtocolAddress) : Bool := true

/-- `new SenderKeyRecord()` serialized: an opaque fresh empty record. -/
def emptySenderKeyRecord : Bytes := []

/-- External libsignal 1:1 primitives (`SessionCipher`, `SessionBuilder`),
abstract state-passing functions over the store, per spec §6.  `encrypt`
returns the signal message type tag (3 = pre-key message) and body. -/
structure SessionPrimitives where
  encrypt : ProtocolAddress → Bytes → SignalKeys → Except SigErr (Nat × Bytes × SignalKeys)
  decryptPreKeyWhisperMessage : ProtocolAddress → Bytes → SignalKeys → Except SigErr (Bytes × SignalKeys)
  decryptWhisperMessage : ProtocolAddress → Bytes → SignalKeys → Except SigErr (Bytes × SignalKeys)
  initOutgoing : ProtocolAddress → Bytes → SignalKeys → Except SigErr SignalKeys

/-- Source lines 75–89, `decryptMessage`: resolve the raw jid to a
`ProtocolAddress`, then dispatch on `type`; the `switch` has no default
branch, so an unrecognized type leaves `result` undefined (`none`) and the
operation still succeeds. -/
def decryptMessage (P : SessionPrimitives) (jid type : JStr) (ciphertext : Bytes)
    (keys : SignalKeys) : Except SigErr (Option Bytes × SignalKeys) :=
  match jidToSignalProtocolAddress jid with
  | .error e => .error e
  | .ok addr =>
    if type = "pkmsg".toList then
      match P.decryptPreKeyWhisperMessage addr ciphertext keys with
      | .error e => .error e
      | .ok (r, k) => .ok (some r, k)
    else if type = "msg".toList then
      match P.decryptWhisperMessage addr ciphertext keys with
      | .error e => .error e
      | .ok (r, k) => .ok (some r, k)
    else .ok (none, keys)

/-- Source lines 90–97, `encryptMessage`: resolve the raw jid, encrypt, and
classify the result by the signal type tag (`3` ⇒ `"pkmsg"`, else `"msg"`). -/
def encryptMessage (P : SessionPrimitives) (jid : JStr) (data : Bytes)
    (keys : SignalKeys) : Except SigErr ((JStr × Bytes) × SignalKeys) :=
  match jidToSignalProtocolAddress jid with
  | .error e => .error e
  | .ok addr =>
    match P.encrypt addr data keys with
    | .error e => .error e
    | .ok (sigType, body, k) =>
        .ok ((if sigType = 3 then "pkmsg".toList else "msg".toList, body), k)

/-- Source lines 116–122, `injectE2ESession`: resolve the raw jid and hand the
bundle to the external `SessionBuilder.initOutgoing`. -/
def injectE2ESession (P : SessionPrimitives) (jid : JStr) (session : Bytes)
    (keys : SignalKeys) : Except SigErr SignalKeys :=
  match jidToSignalProtocolAddress jid with
  | .error e => .error e
  | .ok addr => P.initOutgoing addr session keys

/-- External WASignalGroup primitives (`GroupSessionBuilder`, `GroupCipher`),
abstract state-passing functions, per spec §6.  `D` is the opaque
`SenderKeyDistributionMessage` type with its `serialize` method. -/
structure GroupPrimitives (D : Type) where
  builderCreate : JStr → SignalKeys → Except SigErr (D × SignalKeys)
  serializeDist : D → Bytes
  groupEncrypt : JStr → Bytes → SignalKeys → Except SigErr (Bytes × SignalKeys)

/-- Source lines 102–105 (shared with lines 68–71): read the `sender-key` kind
for the name and, exactly when no record is stored, create an empty one via
`storage.storeSenderKey`. -/
def ensureSenderKey (keys : SignalKeys) (name : JStr) (existing : Option Bytes) : SignalKeys :=
  if existing.isNone then storeSenderKey keys name emptySenderKeyRecord else keys

/-- Source lines 98–115, `encryptGroupMessage`: compute the sender-key name,
ensure a record exists for self, derive the distribution message, then encrypt
and return the ciphertext together with the serialized distribution message. -/
def encryptGroupMessage {D : Type} (P : GroupPrimitives D) (group meId : JStr)
    (data : Bytes) (keys : SignalKeys) : Except SigErr ((Bytes × Bytes) × SignalKeys) :=
  match jidToSignalSenderKeyName group meId with
  | .error e => .error e
  | .ok senderName =>
    match keys.senderKey senderName with
    | .error e => .error e
    | .ok senderKey =>
      let keys1 := ensureSenderKey keys senderName senderKey
      match P.builderCreate senderName keys1 with
      | .error e => .error e
      | .ok (dist, keys2) =>
        match P.groupEncrypt senderName data keys2 with
        | .error e => .error e
        | .ok (ct, keys3) => .ok ((ct, P.serializeDist dist), keys3)

/-! ### Concrete store states and primitive instances used for evaluation -/

/-- A store whose lid-mapping table holds the single entry
`123@lid ↦ 999@s.whatsapp.net` and no sessions or sender keys. -/
def exKeys : SignalKeys where
  lidMapping := fun b =>
    if b = "123@lid".toList then .ok (some "999@s.whatsapp.net".toList) else .ok none
  session := fun _ => .ok none
  senderKey := fun _ => .ok none

/-- A store whose lid-mapping lookups always fail with a store error. -/
def exKeysErr : SignalKeys where
  lidMapping := fun _ => .error (.Store "db down".toList)
  session := fun _ => .ok none
  senderKey := fun _ => .ok none

/-- Injective encoding of a `ProtocolAddress` into bytes, used by the
instrumentation primitives to expose which address the repository handed them. -/
def encodeAddr (a : ProtocolAddress) : Bytes := a.deviceId :: a.name.map Char.toNat

/-- Instrumentation instance of the external 1:1 primitives: each operation
reports the `ProtocolAddress` it was invoked at and leaves the store alone. -/
def revealP : SessionPrimitives where
  encrypt := fun a _ k => .ok (3, encodeAddr a, k)
  decryptPreKeyWhisperMessage := fun a _ k => .ok (encodeAddr a, k)
  decryptWhisperMessage := fun a _ k => .ok (encodeAddr a, k)
  initOutgoing := fun _ _ k => .ok k

/-- A trivial instance of the external group primitives. -/
def trivialGP : GroupPrimitives Unit where
  builderCreate := fun _ k => .ok ((), k)
  serializeDist := fun _ => [7]
  groupEncrypt := fun _ d k => .ok (d, k)

/-! ### Helper lemmas about the string machinery -/

theorem ciEq_refl (c : Char) : ciEq c c = true := by simp [ciEq]

theorem ciEqList_refl (l : JStr) : ciEqList l l = true := by simp [ciEqList]

theorem startsWithCI_nil (s : JStr) : startsWithCI s [] = true := by
  cases s <;> rfl

theorem startsWithCI_self_append (a b : JStr) : startsWithCI (a ++ b) a = true := by
  induction a with
  | nil => exact startsWithCI_nil b
  | cons c a ih => simp [startsWithCI, ciEq_refl, ih]

theorem endsWithCI_append_self (x s : JStr) : endsWithCI (x ++ s) s = true := by
  unfold endsWithCI
  rw [List.reverse_append]
  exact startsWithCI_self_append s.reverse x.reverse

theorem endsWithCI_wa_lid_false (y : JStr) : endsWithCI (y ++ waSuffix) lidSuffix = false := by
  unfold endsWithCI
  rw [List.reverse_append]
  rfl

theorem takeWhile_append_all {p : Char → Bool} (u r : JStr) (h : ∀ c ∈ u, p c = true) :
    (u ++ r).takeWhile p = u ++ r.takeWhile p := by
  induction u with
  | nil => rfl
  | cons c u ih =>
    have hc : p c = true := h c (by simp)
    simp only [List.cons_append, List.takeWhile_cons, hc, if_true]
    rw [ih (fun x hx => h x (by simp [hx]))]

theorem dropWhile_append_all {p : Char → Bool} (u r : JStr) (h : ∀ c ∈ u, p c = true) :
    (u ++ r).dropWhile p = r.dropWhile p := by
  induction u with
  | nil => rfl
  | cons c u ih =>
    have hc : p c = true := h c (by simp)
    simp only [List.cons_append, List.dropWhile_cons, hc, if_true]
    exact ih (fun x hx => h x (by simp [hx]))

theorem parseLid_nodev (u : JStr) (hu : u ≠ []) (hs : ∀ c ∈ u, notSep c = true) :
    parseLid (u ++ lidSuffix) = some (u, none) := by
  have ht : (u ++ lidSuffix).takeWhile notSep = u := by
    rw [takeWhile_append_all u lidSuffix hs,
      show List.takeWhile notSep lidSuffix = [] from rfl, List.append_nil]
  have hd : (u ++ lidSuffix).dropWhile notSep = lidSuffix := by
    rw [dropWhile_append_all u lidSuffix hs]; rfl
  have hne : u.isEmpty = false := by cases u with
    | nil => exact absurd rfl hu
    | cons c l => rfl
  simp only [parseLid, ht, hd, hne]
  rfl

theorem parseLid_dev (u ds : JStr) (hu : u ≠ []) (hs : ∀ c ∈ u, notSep c = true)
    (hds : ds ≠ []) (hdig : ∀ c ∈ ds, c.isDigit = true) :
    parseLid (u ++ (':' :: (ds ++ lidSuffix))) = some (u, some (':' :: ds)) := by
  have ht : (u ++ (':' :: (ds ++ lidSuffix))).takeWhile notSep = u := by
    rw [takeWhile_append_all u _ hs,
      show List.takeWhile notSep (':' :: (ds ++ lidSuffix)) = [] from rfl, List.append_nil]
  have hd : (u ++ (':' :: (ds ++ lidSuffix))).dropWhile notSep = ':' :: (ds ++ lidSuffix) := by
    rw [dropWhile_append_all u _ hs]; rfl
  have hne : u.isEmpty = false := by cases u with
    | nil => exact absurd rfl hu
    | cons c l => rfl
  have htd : (ds ++ lidSuffix).takeWhile Char.isDigit = ds := by
    rw [takeWhile_append_all ds lidSuffix hdig,
      show List.takeWhile Char.isDigit lidSuffix = [] from rfl, List.append_nil]
  have hdd : (ds ++ lidSuffix).dropWhile Char.isDigit = lidSuffix := by
    rw [dropWhile_append_all ds lidSuffix hdig]; rfl
  have hdse : ds.isEmpty = false := by cases ds with
    | nil => exact absurd rfl hds
    | cons c l => rfl
  simp only [parseLid, ht, hd, htd, hdd, hne, hdse, ciEqList_refl]
  rfl

theorem replaceWaSuffix_append (c0 dev : JStr) :
    replaceWaSuffix (c0 ++ waSuffix) dev = c0 ++ dev ++ waSuffix := by
  unfold replaceWaSuffix
  rw [endsWithCI_append_self]
  have hlen : (c0 ++ waSuffix).length - 15 = c0.length := by
    simp [List.length_append, waSuffix]
  rw [if_pos rfl, hlen]
  simp

theorem natCharsAux_suffix (fuel : Nat) : ∀ (m : Nat) (acc : JStr),
    ∃ q, natCharsAux fuel m acc = q ++ acc := by
  induction fuel with
  | zero => exact fun m acc => ⟨[], rfl⟩
  | succ fuel ih =>
    intro m acc
    by_cases h : m < 10
    · exact ⟨[Char.ofNat (48 + m % 10)], by simp [natCharsAux, h]⟩
    · obtain ⟨q, hq⟩ := ih (m / 10) (Char.ofNat (48 + m % 10) :: acc)
      exact ⟨q ++ [Char.ofNat (48 + m % 10)], by simp [natCharsAux, h, hq]⟩

theorem natChars_ends (n : Nat) : ∃ p, natChars n = p ++ [Char.ofNat (48 + n % 10)] := by
  unfold natChars
  by_cases h : n < 10
  · exact ⟨[], by simp [natCharsAux, h]⟩
  · obtain ⟨q, hq⟩ := natCharsAux_suffix n (n / 10) [Char.ofNat (48 + n % 10)]
    exact ⟨q, by simp [natCharsAux, h, hq]⟩

theorem ciEq_digit_d (n : Nat) : ciEq (Char.ofNat (48 + n % 10)) 'd' = false := by
  have h : n % 10 < 10 := Nat.mod_lt _ (by omega)
  set m := n % 10 with hm
  interval_cases m <;> decide

theorem hasLidSuffix_senderKeyName (g : JStr) (a : ProtocolAddress) :
    hasLidSuffix (senderKeyNameStr g a) = false := by
  obtain ⟨p, hp⟩ := natChars_ends a.deviceId
  unfold hasLidSuffix endsWithCI senderKeyNameStr
  rw [hp]
  have : g ++ (':' :: ':' :: a.name) ++ (':' :: ':' :: (p ++ [Char.ofNat (48 + a.deviceId % 10)]))
      = (g ++ (':' :: ':' :: a.name) ++ (':' :: ':' :: p)) ++ [Char.ofNat (48 + a.deviceId % 10)] := by
    simp
  rw [this, List.reverse_append]
  simp [startsWithCI, lidSuffix, ciEq_digit_d]

theorem normalizeLidToJid_of_not_lid (a : JStr) (keys : SignalKeys)
    (h : hasLidSuffix a = false) : normalizeLidToJid a keys = a := by
  simp [normalizeLidToJid, h]

theorem normalizeLidToJid_senderKeyName (g : JStr) (a : ProtocolAddress) (keys : SignalKeys) :
    normalizeLidToJid (senderKeyNameStr g a) keys = senderKeyNameStr g a :=
  normalizeLidToJid_of_not_lid _ _ (hasLidSuffix_senderKeyName g a)

theorem normalizeLidToJid_cases (a : JStr) (keys : SignalKeys) :
    normalizeLidToJid a keys = a ∨
    ∃ mapped, keys.lidMapping (bareLid a) = .ok (some mapped) ∧ mapped.isEmpty = false ∧
      normalizeLidToJid a keys = replaceWaSuffix mapped (deviceOf a) := by
  by_cases hl : hasLidSuffix a = true
  · rcases hm : keys.lidMapping (bareLid a) with e | om
    · left; simp [normalizeLidToJid, hl, hm]
    · rcases om with _ | mapped
      · left; simp [normalizeLidToJid, hl, hm]
      · by_cases he : mapped.isEmpty = true
        · left; simp [normalizeLidToJid, hl, hm, he]
        · right
          refine ⟨mapped, rfl, by simpa using he, ?_⟩
          simp [normalizeLidToJid, hl, hm, he]
  · left
    exact normalizeLidToJid_of_not_lid a keys (by simpa using hl)

theorem normalizeLidToJid_of_mapped (a : JStr) (keys : SignalKeys) (m : JStr)
    (hl : hasLidSuffix a = true) (hm : keys.lidMapping (bareLid a) = .ok (some m))
    (hne : m.isEmpty = false) :
    normalizeLidToJid a keys = replaceWaSuffix m (deviceOf a) := by
  simp [normalizeLidToJid, hl, hm, hne]

/-! ### Claim theorems -/

/-- C2: for an alternate-scheme address `u ++ dev ++ "@lid"` — well-formed user
part `u`, device suffix `dev` either absent or `":" ++ digits` — whose bare
identifier `u ++ "@lid"` has the non-empty mapping entry `c0 ++
"@s.whatsapp.net"`, normalization returns that canonical address with the
original device suffix re-attached to its device-capable form. -/
theorem c2_normalize_mapped (u dev c0 : JStr) (keys : SignalKeys)
    (hu : u ≠ []) (hsep : ∀ ch ∈ u, notSep ch = true)
    (hdev : dev = [] ∨ ∃ ds, ds ≠ [] ∧ (∀ ch ∈ ds, ch.isDigit = true) ∧ dev = ':' :: ds)
    (hmap : keys.lidMapping (u ++ lidSuffix) = .ok (some (c0 ++ waSuffix))) :
    normalizeLidToJid (u ++ dev ++ lidSuffix) keys = c0 ++ dev ++ waSuffix := by
  have hnec : (c0 ++ waSuffix).isEmpty = false := by cases c0 <;> rfl
  rcases hdev with h0 | ⟨ds, hds, hdig, hdv⟩
  · subst h0
    simp only [List.append_nil]
    have hp := parseLid_nodev u hu hsep
    have hlid : hasLidSuffix (u ++ lidSuffix) = true := endsWithCI_append_self u lidSuffix
    have hb : bareLid (u ++ lidSuffix) = u ++ lidSuffix := by
      simp only [bareLid, hp]
    have hdo : deviceOf (u ++ lidSuffix) = [] := by
      simp only [deviceOf, hp]
    have hm' : keys.lidMapping (bareLid (u ++ lidSuffix)) = .ok (some (c0 ++ waSuffix)) := by
      rw [hb]; exact hmap
    rw [normalizeLidToJid_of_mapped _ _ _ hlid hm' hnec, hdo, replaceWaSuffix_append]
    simp
  · subst hdv
    simp only [List.append_assoc, List.cons_append]
    have hp := parseLid_dev u ds hu hsep hds hdig
    have hlid : hasLidSuffix (u ++ (':' :: (ds ++ lidSuffix))) = true := by
      have heq : u ++ (':' :: (ds ++ lidSuffix)) = (u ++ (':' :: ds)) ++ lidSuffix := by simp
      rw [heq]
      exact endsWithCI_append_self _ _
    have hb : bareLid (u ++ (':' :: (ds ++ lidSuffix))) = u ++ lidSuffix := by
      simp only [bareLid, hp]
    have hdo : deviceOf (u ++ (':' :: (ds ++ lidSuffix))) = ':' :: ds := by
      simp only [deviceOf, hp]
    have hm' : keys.lidMapping (bareLid (u ++ (':' :: (ds ++ lidSuffix))))
        = .ok (some (c0 ++ waSuffix)) := by
      rw [hb]; exact hmap
    rw [normalizeLidToJid_of_mapped _ _ _ hlid hm' hnec, hdo, replaceWaSuffix_append]
    simp

/-- C2 witness: `123:4@lid` with mapping `123@lid ↦ 999@s.whatsapp.net`
normalizes to `999:4@s.whatsapp.net`. -/
theorem c2_normalize_mapped_witness :
    normalizeLidToJid ("123".toList ++ (':' :: "4".toList) ++ lidSuffix) exKeys
      = "999".toList ++ (':' :: "4".toList) ++ waSuffix :=
  c2_normalize_mapped "123".toList (':' :: "4".toList) "999".toList exKeys
    (by decide) (by decide) (Or.inr ⟨"4".toList, by decide, by decide, rfl⟩) (by decide)

/-- C3: when the lid-mapping lookup for the bare identifier fails with a store
error or finds no entry, normalization returns the original address unchanged
(and, being a total function, never raises to its caller). -/
theorem c3_normalize_lookup_failure (a : JStr) (keys : SignalKeys)
    (h : (∃ e, keys.lidMapping (bareLid a) = .error e) ∨ keys.lidMapping (bareLid a) = .ok none) :
    normalizeLidToJid a keys = a := by
  by_cases hl : hasLidSuffix a = true
  · rcases h with ⟨e, he⟩ | hn
    · simp [normalizeLidToJid, hl, he]
    · simp [normalizeLidToJid, hl, hn]
  · exact normalizeLidToJid_of_not_lid a keys (by simpa using hl)

/-- C3 witness: with an always-erroring lid-mapping store, `123:4@lid` is
returned unchanged. -/
theorem c3_normalize_lookup_failure_witness :
    normalizeLidToJid "123:4@lid".toList exKeysErr = "123:4@lid".toList :=
  c3_normalize_lookup_failure "123:4@lid".toList exKeysErr
    (Or.inl ⟨.Store "db down".toList, by decide⟩)

/-- C4: under the spec's data-model invariant that mapped values are canonical
(an alternate-scheme id is never a mapping value), normalization is idempotent
over a fixed store state. -/
theorem c4_normalize_idempotent (keys : SignalKeys)
    (hwf : ∀ b c, keys.lidMapping b = .ok (some c) → hasLidSuffix c = false)
    (a : JStr) :
    normalizeLidToJid (normalizeLidToJid a keys) keys = normalizeLidToJid a keys := by
  rcases normalizeLidToJid_cases a keys with hr | ⟨mapped, hm, hne, hr⟩
  · rw [hr, hr]
  · rw [hr]
    by_cases hw : endsWithCI mapped waSuffix = true
    · apply normalizeLidToJid_of_not_lid
      simp only [replaceWaSuffix, hw, if_true]
      exact endsWithCI_wa_lid_false _
    · have hrw : replaceWaSuffix mapped (deviceOf a) = mapped := by
        simp [replaceWaSuffix, hw]
      rw [hrw]
      exact normalizeLidToJid_of_not_lid _ _ (hwf _ _ hm)

/-- C4 witness: normalizing `123:4@lid` twice against the example store equals
normalizing it once. -/
theorem c4_normalize_idempotent_witness :
    normalizeLidToJid (normalizeLidToJid "123:4@lid".toList exKeys) exKeys
      = normalizeLidToJid "123:4@lid".toList exKeys := by
  refine c4_normalize_idempotent exKeys ?_ "123:4@lid".toList
  intro b c h
  by_cases hb : b = "123@lid".toList
  · subst hb
    simp [exKeys] at h
    subst h
    decide
  · have hx : exKeys.lidMapping b = (Except.ok none : Except SigErr (Option JStr)) := by
      show (if b = "123@lid".toList then Except.ok (some "999@s.whatsapp.net".toList)
        else Except.ok none) = Except.ok none
      exact if_neg hb
    rw [hx] at h
    exact Option.noConfusion (Except.ok.inj h)

/-- C5: an address without the `@lid` marker is returned unchanged by
normalization, and the result does not depend on the store at all (the
lid-mapping table is never consulted). -/
theorem c5_normalize_non_alternate (a : JStr) (keys keys2 : SignalKeys)
    (h : hasLidSuffix a = false) :
    normalizeLidToJid a keys = a ∧ normalizeLidToJid a keys = normalizeLidToJid a keys2 := by
  refine ⟨normalizeLidToJid_of_not_lid a keys h, ?_⟩
  rw [normalizeLidToJid_of_not_lid a keys h, normalizeLidToJid_of_not_lid a keys2 h]

/-- C5 witness: `999:4@s.whatsapp.net` is a fixed point of normalization under
both the mapping-carrying store and the erroring store. -/
theorem c5_normalize_non_alternate_witness :
    normalizeLidToJid "999:4@s.whatsapp.net".toList exKeys = "999:4@s.whatsapp.net".toList ∧
    normalizeLidToJid "999:4@s.whatsapp.net".toList exKeys
      = normalizeLidToJid "999:4@s.whatsapp.net".toList exKeysErr :=
  c5_normalize_non_alternate "999:4@s.whatsapp.net".toList exKeys exKeysErr (by decide)

/-- C1 counterexample: with the mapping `123@lid ↦ 999@s.whatsapp.net` in the
store, normalization moves `123:4@lid` to `999:4@s.whatsapp.net`, whose resolved
address is `(999, 4)`; yet `encryptMessage` hands its cipher primitive the
address `(123, 4)` resolved from the raw argument — so the 1:1 operations do
NOT normalize the address before resolving it, contrary to the claim. -/
theorem c1_counterexample :
    normalizeLidToJid "123:4@lid".toList exKeys = "999:4@s.whatsapp.net".toList ∧
    jidToSignalProtocolAddress "999:4@s.whatsapp.net".toList = .ok ⟨"999".toList, 4⟩ ∧
    encryptMessage revealP "123:4@lid".toList [] exKeys
      = .ok (("pkmsg".toList, encodeAddr ⟨"123".toList, 4⟩), exKeys) ∧
    encodeAddr ⟨"123".toList, 4⟩ ≠ encodeAddr ⟨"999".toList, 4⟩ := by
  refine ⟨by decide, by decide, ?_, by decide⟩
  rfl

/-- C1 amended: each 1:1 operation (`encryptMessage`, `decryptMessage`,
`injectE2ESession`) resolves its raw address argument directly to the
`ProtocolAddress` it hands the cipher primitives, with no prior normalization;
the identity normalizer is applied instead inside the storage layer, by
`loadSession`/`storeSession`, to the session id they are given. -/
theorem c1_amended_raw_resolution (P : SessionPrimitives) (jid : JStr)
    (data sess ct : Bytes) (keys : SignalKeys) (addr : ProtocolAddress)
    (id : JStr) (v : Bytes)
    (haddr : jidToSignalProtocolAddress jid = .ok addr) :
    (encryptMessage P jid data keys =
      match P.encrypt addr data keys with
      | .error e => .error e
      | .ok (t, b, k) => .ok ((if t = 3 then "pkmsg".toList else "msg".toList, b), k)) ∧
    (decryptMessage P jid "msg".toList ct keys =
      match P.decryptWhisperMessage addr ct keys with
      | .error e => .error e
      | .ok (r, k) => .ok (some r, k)) ∧
    (injectE2ESession P jid sess keys = P.initOutgoing addr sess keys) ∧
    (loadSession keys id = keys.session (normalizeLidToJid id keys)) ∧
    ((storeSession keys id v).session (normalizeLidToJid id keys) = .ok (some v)) := by
  refine ⟨?_, ?_, ?_, rfl, ?_⟩
  · simp only [encryptMessage, haddr]
  · simp only [decryptMessage, haddr]
    rfl
  · simp only [injectE2ESession, haddr]
  · simp [storeSession, setSession]

/-- C1 amended witness: concrete runs showing raw-address resolution in the
operations and normalization in the storage layer. -/
theorem c1_amended_raw_resolution_witness :
    injectE2ESession revealP "7@c.us".toList [] exKeys
      = revealP.initOutgoing ⟨"7".toList, 0⟩ [] exKeys ∧
    (storeSession exKeys "123:4@lid".toList [1]).session
      (normalizeLidToJid "123:4@lid".toList exKeys) = .ok (some [1]) := by
  have h := c1_amended_raw_resolution revealP "7@c.us".toList [] [] [] exKeys
    ⟨"7".toList, 0⟩ "123:4@lid".toList [1] rfl
  exact ⟨h.2.2.1, h.2.2.2.2⟩

/-- C6: an address whose principal segment is empty, or which cannot be decoded
at all, makes the protocol-address resolver fail with `MalformedAddress` (a
pure function: no store access, no retry). -/
theorem c6_resolver_malformed (jid : JStr)
    (h : jidDecode jid = none ∨ ∃ d, jidDecode jid = some ([], d)) :
    jidToSignalProtocolAddress jid = .error .MalformedAddress := by
  rcases h with h | ⟨d, h⟩ <;> simp [jidToSignalProtocolAddress, h]

/-- C6 witness: `@lid` has an empty principal and `nope` is undecodable; both
resolve to `MalformedAddress`. -/
theorem c6_resolver_malformed_witness :
    jidToSignalProtocolAddress "@lid".toList = .error .MalformedAddress ∧
    jidToSignalProtocolAddress "nope".toList = .error .MalformedAddress :=
  ⟨c6_resolver_malformed "@lid".toList (Or.inr ⟨none, by decide⟩),
   c6_resolver_malformed "nope".toList (Or.inl (by decide))⟩

/-- C7: the sender-key name derivation is a pure function of its inputs — two
calls with equal `(groupId, memberAddress)` inputs produce identical storage
keys. -/
theorem c7_senderKeyName_deterministic (g1 g2 u1 u2 : JStr)
    (h1 : g1 = g2) (h2 : u1 = u2) :
    jidToSignalSenderKeyName g1 u1 = jidToSignalSenderKeyName g2 u2 := by
  subst h1
  subst h2
  rfl

/-- C7 witness: repeated derivation at `("g", "7@c.us")` yields the identical
key. -/
theorem c7_senderKeyName_deterministic_witness :
    jidToSignalSenderKeyName "g".toList "7@c.us".toList
      = jidToSignalSenderKeyName "g".toList "7@c.us".toList :=
  c7_senderKeyName_deterministic "g".toList "g".toList "7@c.us".toList "7@c.us".toList rfl rfl

/-- C8: `encryptGroupMessage` first ensures a sender-key record exists for self
(writing a fresh empty record exactly when none is stored), then derives the
distribution message from that pre-encryption state, encrypts against the
post-derivation state, and returns the ciphertext together with the serialized
distribution message. -/
theorem c8_encryptGroupMessage_spec {D : Type} (P : GroupPrimitives D)
    (group meId : JStr) (data : Bytes) (keys : SignalKeys) (addr : ProtocolAddress)
    (r0 : Option Bytes) (dist : D) (keys2 : SignalKeys) (ct : Bytes) (keys3 : SignalKeys)
    (haddr : jidToSignalProtocolAddress meId = .ok addr)
    (hget : keys.senderKey (senderKeyNameStr group addr) = .ok r0)
    (hcreate : P.builderCreate (senderKeyNameStr group addr)
        (ensureSenderKey keys (senderKeyNameStr group addr) r0) = .ok (dist, keys2))
    (henc : P.groupEncrypt (senderKeyNameStr group addr) data keys2 = .ok (ct, keys3)) :
    ((ensureSenderKey keys (senderKeyNameStr group addr) r0).senderKey
        (senderKeyNameStr group addr) ≠ .ok none) ∧
    (∀ b, r0 = some b → ensureSenderKey keys (senderKeyNameStr group addr) r0 = keys) ∧
    (r0 = none → (ensureSenderKey keys (senderKeyNameStr group addr) r0).senderKey
        (senderKeyNameStr group addr) = .ok (some emptySenderKeyRecord)) ∧
    encryptGroupMessage P group meId data keys = .ok ((ct, P.serializeDist dist), keys3) := by
  have hname : jidToSignalSenderKeyName group meId = .ok (senderKeyNameStr group addr) := by
    simp [jidToSignalSenderKeyName, haddr, Except.map]
  have hnorm := normalizeLidToJid_senderKeyName group addr keys
  refine ⟨?_, ?_, ?_, ?_⟩
  · cases r0 with
    | none =>
      simp [ensureSenderKey, storeSenderKey, setSenderKey, hnorm]
    | some b =>
      simp only [ensureSenderKey, Option.isNone_some, Bool.false_eq_true, if_false, hget]
      intro hc
      simp at hc
  · intro b hb
    subst hb
    simp [ensureSenderKey]
  · intro hb
    subst hb
    simp [ensureSenderKey, storeSenderKey, setSenderKey, hnorm]
  · simp only [encryptGroupMessage, hname, hget, hcreate, henc]

/-- C8 witness: a concrete run with an empty store creates the empty sender-key
record and returns ciphertext plus serialized distribution message. -/
theorem c8_encryptGroupMessage_spec_witness :
    encryptGroupMessage trivialGP "g".toList "7@c.us".toList [5] exKeys
      = .ok (([5], [7]), storeSenderKey exKeys
          (senderKeyNameStr "g".toList ⟨"7".toList, 0⟩) emptySenderKeyRecord) ∧
    (ensureSenderKey exKeys (senderKeyNameStr "g".toList ⟨"7".toList, 0⟩) none).senderKey
      (senderKeyNameStr "g".toList ⟨"7".toList, 0⟩) = .ok (some emptySenderKeyRecord) := by
  have h := c8_encryptGroupMessage_spec trivialGP "g".toList "7@c.us".toList [5] exKeys
    ⟨"7".toList, 0⟩ none ()
    (storeSenderKey exKeys (senderKeyNameStr "g".toList ⟨"7".toList, 0⟩) emptySenderKeyRecord)
    [5]
    (storeSenderKey exKeys (senderKeyNameStr "g".toList ⟨"7".toList, 0⟩) emptySenderKeyRecord)
    rfl rfl rfl rfl
  exact ⟨h.2.2.2, h.2.2.1 rfl⟩

/-- C9: the storage layer's identity-trust check accepts unconditionally: it
ignores its identity and address inputs and returns `true` (the TypeScript
arrow function takes no parameters at all). -/
theorem c9_isTrustedIdentity_true (identity : JStr) (address : ProtocolAddress) :
    isTrustedIdentity identity address = true := rfl

/-- C10: for a message type other than `pkmsg` and `msg`, `decryptMessage`
succeeds with no plaintext (`none`, modelling the undefined `result` of the
default-less `switch`) and an untouched store; the primitive `P` is arbitrary,
so neither decoder is consulted. -/
theorem c10_decrypt_unknown_type (P : SessionPrimitives) (jid type : JStr)
    (ct : Bytes) (keys : SignalKeys) (addr : ProtocolAddress)
    (haddr : jidToSignalProtocolAddress jid = .ok addr)
    (h1 : type ≠ "pkmsg".toList) (h2 : type ≠ "msg".toList) :
    decryptMessage P jid type ct keys = .ok (none, keys) := by
  simp only [decryptMessage, haddr]
  rw [if_neg h1, if_neg h2]

/-- C10 witness: decrypting a `foo`-typed message returns no plaintext and
leaves the store untouched. -/
theorem c10_decrypt_unknown_type_witness :
    decryptMessage revealP "7@c.us".toList "foo".toList [] exKeys = .ok (none, exKeys) :=
  c10_decrypt_unknown_type revealP "7@c.us".toList "foo".toList [] exKeys
    ⟨"7".toList, 0⟩ rfl (by decide) (by decide)

end Baileys
